import Mathlib

/-!
# 3scale-opa: authorization shim, verified against its source

Shallow embedding of `pkg/threescale/threescale_authrep_query.go` and
`pkg/threescale/limits_storage_in_memory.go`.

* Go maps are association lists with unique keys (`GoMap`).
* Go's `int` is a 64-bit two's-complement integer: values live in `Int` and
  every arithmetic result is reduced with `wrapInt` (an explicit `% 2^64`).
* Go's `(value, error)` results are `Except String _`, or a pair of options
  where the source returns a value together with an error.
* Calls that leave the process (environment lookups, the Porta client, the
  Apisonator client, the regular-expression library) are fields of a `World`
  or `RegexEngine` record, and every call made is recorded in a trace.
-/

namespace Threescale

deriving instance DecidableEq for Except

/-! ## Go maps -/

/-- A Go `map[κ]ν`: an association list in which every key occurs at most once. -/
abbrev GoMap (κ ν : Type) := List (κ × ν)

/-- The lookup `v, ok := m[k]`. -/
def GoMap.find {κ ν : Type} [DecidableEq κ] : GoMap κ ν → κ → Option ν
  | [], _ => none
  | (k', v') :: rest, k => if k' = k then some v' else GoMap.find rest k

/-- The assignment `m[k] = v`. -/
def GoMap.store {κ ν : Type} [DecidableEq κ] : GoMap κ ν → κ → ν → GoMap κ ν
  | [], k, v => [(k, v)]
  | (k', v') :: rest, k, v =>
    if k' = k then (k', v) :: rest else (k', v') :: GoMap.store rest k v

/-- The keys of a map. -/
def GoMap.keys {κ ν : Type} (m : GoMap κ ν) : List κ := m.map Prod.fst

/-! ## Go integers -/

/-- Smallest `int`. -/
def minInt : Int := -(2 ^ 63)

/-- Largest `int`. -/
def maxInt : Int := 2 ^ 63 - 1

/-- Two's-complement reduction of an exact integer into the range of `int`,
which is 64 bits wide on the targets the service is built for. Go's `+` and
`-` on `int` return the exact result reduced this way. -/
def wrapInt (x : Int) : Int := (x + 2 ^ 63) % 2 ^ 64 - 2 ^ 63

/-- The integer is representable as a Go `int`. -/
def inIntRange (x : Int) : Prop := minInt ≤ x ∧ x ≤ maxInt

instance (x : Int) : Decidable (inIntRange x) := by
  unfold inIntRange; exact inferInstance

/-! ## Regular expressions (library `regexp`) -/

/-- The regular-expression library as the code uses it: `regexp.Compile` and
`(*Regexp).Match`. -/
structure RegexEngine where
  /-- Compiled expressions, `*regexp.Regexp`. -/
  Regexp : Type
  /-- `regexp.Compile`: the compiled expression, or the parse error. -/
  Compile : String → Except String Regexp
  /-- `(*Regexp).Match` on the bytes of the path. -/
  Match : Regexp → String → Bool

/-! ## Porta data -/

/-- The fields of `porta.ProxyRule` the code reads; `Delta` is an `int64` there,
which the code converts with `int(rule.Delta)`. -/
structure ProxyRule where
  Pattern : String
  MetricSystemName : String
  Delta : Int
  deriving DecidableEq, Repr

/-- `threescaleAPI.Metrics`, a `map[string]int`. -/
abbrev Metrics := GoMap String Int

/-- The statement `res[k] += d` on a `map[string]int`: a missing key reads as
zero and the sum is an `int`. -/
def Metrics.addTo (res : Metrics) (k : String) (d : Int) : Metrics :=
  GoMap.store res k (wrapInt ((GoMap.find res k).getD 0 + d))

/-- The loop of `usageFromMatchedRules` over the remaining rules, with the map
built so far. -/
def usageLoop (engine : RegexEngine) (path : String) :
    List ProxyRule → Metrics → Except String Metrics
  | [], res => .ok res
  | rule :: rest, res =>
    match engine.Compile rule.Pattern with
    | .error err => .error err
    | .ok regex =>
      if engine.Match regex path then
        usageLoop engine path rest (Metrics.addTo res rule.MetricSystemName (wrapInt rule.Delta))
      else
        usageLoop engine path rest res

/-- `usageFromMatchedRules(path, rules)`. -/
def usageFromMatchedRules (engine : RegexEngine) (path : String) (rules : List ProxyRule) :
    Except String Metrics :=
  usageLoop engine path rules []

/-- The rule's pattern compiles and the compiled pattern matches the path. -/
def ruleMatches (engine : RegexEngine) (path : String) (rule : ProxyRule) : Bool :=
  match engine.Compile rule.Pattern with
  | .ok regex => engine.Match regex path
  | .error _ => false

/-- The rule's pattern compiles. -/
def ruleCompiles (engine : RegexEngine) (rule : ProxyRule) : Bool :=
  match engine.Compile rule.Pattern with
  | .ok _ => true
  | .error _ => false

/-- Exact sum of `delta` over the rules that target metric `m` and match the
path (the quantity the specification names). -/
def matchedDeltaSum (engine : RegexEngine) (path : String) (rules : List ProxyRule)
    (m : String) : Int :=
  ((rules.filter (fun r => ruleMatches engine path r && decide (r.MetricSystemName = m))).map
    (fun r => r.Delta)).sum

/-- Whether the text starts with the given characters. -/
def startsWith : List Char → List Char → Bool
  | [], _ => true
  | _ :: _, [] => false
  | a :: as, b :: bs => a == b && startsWith as bs

/-- Whether the given characters occur somewhere in the text. -/
def occursIn (pat : List Char) : List Char → Bool
  | [] => startsWith pat []
  | b :: bs => startsWith pat (b :: bs) || occursIn pat bs

/-- A small engine used for concrete examples: a pattern with an opening
parenthesis does not compile, a leading `^` anchors at the start, and the
rest of the pattern is literal text found anywhere in the path. On the
patterns and paths of the examples below it answers as `regexp` does. -/
def sampleEngine : RegexEngine where
  Regexp := List Char
  Compile := fun p =>
    if '(' ∈ p.data then .error "error parsing regexp: missing closing )" else .ok p.data
  Match := fun re path =>
    match re with
    | '^' :: rest => startsWith rest path.data
    | _ => occursIn re path.data

/-! ## Porta configuration and its cache -/

/-- The field `Proxy` of the configuration content. -/
structure Proxy where
  ProxyRules : List ProxyRule
  deriving DecidableEq, Repr

/-- The field `Content` of `porta.ProxyConfig`. -/
structure Content where
  BackendAuthenticationType : String
  BackendAuthenticationValue : String
  Proxy : Proxy
  deriving DecidableEq, Repr

/-- The fields of `porta.ProxyConfig` the code reads. -/
structure ProxyConfig where
  Content : Content
  deriving DecidableEq, Repr

/-- Modelled from the spec: the type `portaConfigsCache` with its methods `get`
and `set` (built by `newPortaConfigsCache`), which the source files use but
do not contain. Its key space is (tenantId, environment) pairs, unique, and
entries never expire. -/
structure PortaConfigsCache where
  entries : GoMap (String × String) ProxyConfig
  deriving DecidableEq, Repr

/-- Modelled from the spec: `newPortaConfigsCache`, the cache with no entry. -/
def newPortaConfigsCache : PortaConfigsCache := ⟨[]⟩

/-- Modelled from the spec: `get` is a pure lookup against the current entry
set. -/
def PortaConfigsCache.get (c : PortaConfigsCache) (serviceId environment : String) :
    Option ProxyConfig :=
  GoMap.find c.entries (serviceId, environment)

/-- Modelled from the spec: `set` stores the configuration under the key
(tenantId, environment), replacing wholesale what was there. -/
def PortaConfigsCache.set (c : PortaConfigsCache) (serviceId environment : String)
    (config : ProxyConfig) : PortaConfigsCache :=
  ⟨GoMap.store c.entries (serviceId, environment) config⟩

/-! ## Constants of the package -/

def adminPortalEnv : String := "THREESCALE_ADMIN_PORTAL"
def accessTokenEnv : String := "THREESCALE_ACCESS_TOKEN"
def serviceIdEnv : String := "THREESCALE_SERVICE_ID"
def proxyConfigEnvironment : String := "production"
def adminPortalScheme : String := "https"
def adminPortalPort : Nat := 443

/-! ## Collaborators outside the process -/

/-- The value `porta.NewAdminPortal` builds. -/
structure AdminPortal where
  scheme : String
  host : String
  port : Nat
  deriving DecidableEq, Repr

/-- `threescaleAPI.ClientAuth`; `Type_` is the Go field `Type`. -/
structure ClientAuth where
  Type_ : String
  Value : String
  deriving DecidableEq, Repr

/-- The fields of `threescaleAPI.Params` the code sets; a field left out of a
Go struct literal is the empty string. -/
structure Params where
  AppID : String
  AppKey : String
  UserKey : String
  deriving DecidableEq, Repr

/-- `threescaleAPI.Transaction`. -/
structure Transaction where
  Metrics : Metrics
  Params : Params
  deriving DecidableEq, Repr

/-- `threescale.Request`. -/
structure Request where
  Auth : ClientAuth
  Service : String
  Transactions : List Transaction
  deriving DecidableEq, Repr

/-- What the process finds outside itself during one call: the environment
variables, the Porta client and the Apisonator client. -/
structure World where
  /-- `os.Getenv`. -/
  Getenv : String → String
  /-- `porta.NewAdminPortal(scheme, host, port)`. -/
  NewAdminPortal : String → String → Nat → Except String AdminPortal
  /-- `porta.NewThreeScale(adminPortal, accessToken, nil).GetLatestProxyConfig(serviceId, env)`,
  projected on the field `ProxyConfig` of the element it returns. -/
  GetLatestProxyConfig : AdminPortal → String → String → String → Except String ProxyConfig
  /-- `apisonator.NewDefaultClient()`: the error, if any. -/
  NewDefaultClient : Option String
  /-- `apisonatorClient.AuthRep(request)`, projected on `resp.Success()`. -/
  AuthRep : Request → Except String Bool

/-- One call that leaves the process. -/
inductive Call where
  | Getenv (name : String)
  | NewAdminPortal (scheme host : String) (port : Nat)
  | GetLatestProxyConfig (serviceId environment : String)
  | NewDefaultClient
  | AuthRep (request : Request)
  deriving DecidableEq, Repr

/-- Whether the call is a configuration fetch from Porta. -/
def Call.isFetch : Call → Bool
  | .GetLatestProxyConfig _ _ => true
  | _ => false

/-- Whether the call is the remote authorization call. -/
def Call.isAuthRep : Call → Bool
  | .AuthRep _ => true
  | _ => false

/-- Result of `proxyConfig`: the returned pair, the package-level cache after
the call, and the calls made outside the process, in order. -/
structure ProxyConfigOutcome where
  result : Except String ProxyConfig
  cache : PortaConfigsCache
  calls : List Call
  deriving DecidableEq

/-- `proxyConfig(serviceId, environment)`. The body runs with the package
mutex held, so a call is one atomic step on the package-level cache. -/
def proxyConfig (w : World) (cache : PortaConfigsCache) (serviceId environment : String) :
    ProxyConfigOutcome :=
  match cache.get serviceId environment with
  | some cachedProxyConfig => ⟨.ok cachedProxyConfig, cache, []⟩
  | none =>
    let adminPortalHost := w.Getenv adminPortalEnv
    if adminPortalHost = "" then
      ⟨.error "admin portal not set", cache, [.Getenv adminPortalEnv]⟩
    else
      match w.NewAdminPortal adminPortalScheme adminPortalHost adminPortalPort with
      | .error err =>
        ⟨.error err, cache,
          [.Getenv adminPortalEnv,
           .NewAdminPortal adminPortalScheme adminPortalHost adminPortalPort]⟩
      | .ok adminPortal =>
        let accessToken := w.Getenv accessTokenEnv
        if accessToken = "" then
          ⟨.error "access token not set", cache,
            [.Getenv adminPortalEnv,
             .NewAdminPortal adminPortalScheme adminPortalHost adminPortalPort,
             .Getenv accessTokenEnv]⟩
        else
          match w.GetLatestProxyConfig adminPortal accessToken serviceId
              proxyConfigEnvironment with
          | .error err =>
            ⟨.error err, cache,
              [.Getenv adminPortalEnv,
               .NewAdminPortal adminPortalScheme adminPortalHost adminPortalPort,
               .Getenv accessTokenEnv,
               .GetLatestProxyConfig serviceId proxyConfigEnvironment]⟩
          | .ok proxyConfig =>
            ⟨.ok proxyConfig, cache.set serviceId environment proxyConfig,
              [.Getenv adminPortalEnv,
               .NewAdminPortal adminPortalScheme adminPortalHost adminPortalPort,
               .Getenv accessTokenEnv,
               .GetLatestProxyConfig serviceId proxyConfigEnvironment]⟩

/-- Successive calls of `proxyConfig` for one key, each in the world it finds:
the results in order, the cache at the end and all calls made. -/
def proxyConfigSeq (serviceId environment : String) :
    List World → PortaConfigsCache → List (Except String ProxyConfig) × PortaConfigsCache × List Call
  | [], cache => ([], cache, [])
  | w :: ws, cache =>
    let first := proxyConfig w cache serviceId environment
    let rest := proxyConfigSeq serviceId environment ws first.cache
    (first.result :: rest.1, rest.2.1, first.calls ++ rest.2.2)

/-- `clientAuthFromProxyConfig(proxyConfig)`: a pointer, `none` standing for
`nil`. -/
def clientAuthFromProxyConfig (proxyConfig : ProxyConfig) : Option ClientAuth :=
  let authType := proxyConfig.Content.BackendAuthenticationType
  let authVal := proxyConfig.Content.BackendAuthenticationValue
  some { Type_ := authType, Value := authVal }

/-- `serviceFromEnv()`. -/
def serviceFromEnv (w : World) : String :=
  let serviceId := w.Getenv serviceIdEnv
  if serviceId = "" then "" else serviceId

/-! ## The request -/

/-- Modelled from the spec: the parsed request envelope `request.Input`, whose
declaration is not among the source files. It exposes the request path
(`Attributes.Request.HTTP.Path`) and a flat mapping of query parameter name to
value (`QueryArgs()`). -/
structure Input where
  Path : String
  QueryArgs : GoMap String String
  deriving DecidableEq, Repr

/-- Indexing a `map[string]string`: a missing key reads as the empty string. -/
def argOf (args : GoMap String String) (name : String) : String :=
  (GoMap.find args name).getD ""

/-- `userKeyFromRequest(request)`. -/
def userKeyFromRequest (request : Input) : String :=
  argOf request.QueryArgs "user_key"

/-- `appIdAndKeyFromRequest(request)`. -/
def appIdAndKeyFromRequest (request : Input) : String × String :=
  let args := request.QueryArgs
  (argOf args "app_id", argOf args "app_key")

/-- `appCredsFromRequest(request)`: a pointer, `none` standing for `nil`. -/
def appCredsFromRequest (request : Input) : Option Params :=
  let userKey := userKeyFromRequest request
  if userKey ≠ "" then
    some { AppID := "", AppKey := "", UserKey := userKey }
  else
    let (appId, appKey) := appIdAndKeyFromRequest request
    if appId ≠ "" ∧ appKey ≠ "" then
      some { AppID := appId, AppKey := appKey, UserKey := "" }
    else
      none

/-- Result of `AuthrepWithThreescaleImpl`: the returned `ast.Value` (`none` for
`nil`, `some b` for `ast.Boolean(b)`), the returned error (`none` for `nil`),
the cache after the call and the calls made outside the process. -/
structure AuthrepOutcome where
  value : Option Bool
  err : Option String
  cache : PortaConfigsCache
  calls : List Call
  deriving DecidableEq

/-- `AuthrepWithThreescaleImpl(httpRequest)`, on the request `req` that
`json.Unmarshal` fills from `httpRequest` (its error is dropped by the code). -/
def AuthrepWithThreescaleImpl (engine : RegexEngine) (w : World) (cache : PortaConfigsCache)
    (req : Input) : AuthrepOutcome :=
  let service := serviceFromEnv w
  if service = "" then
    ⟨none, some "service ID not found", cache, [.Getenv serviceIdEnv]⟩
  else
    let fetched := proxyConfig w cache service proxyConfigEnvironment
    let calls := Call.Getenv serviceIdEnv :: fetched.calls
    match fetched.result with
    | .error err => ⟨some false, some err, fetched.cache, calls⟩
    | .ok proxyConfig =>
      match clientAuthFromProxyConfig proxyConfig with
      | none => ⟨some false, some "service credentials not found", fetched.cache, calls⟩
      | some clientAuth =>
        match appCredsFromRequest req with
        | none => ⟨some false, some "app credentials not found", fetched.cache, calls⟩
        | some appCreds =>
          match usageFromMatchedRules engine req.Path proxyConfig.Content.Proxy.ProxyRules with
          | .error err => ⟨none, some err, fetched.cache, calls⟩
          | .ok usage =>
            if usage.length = 0 then
              ⟨some false, none, fetched.cache, calls⟩
            else
              let threescaleRequest : Request :=
                { Auth := clientAuth, Service := service,
                  Transactions := [{ Metrics := usage, Params := appCreds }] }
              match w.NewDefaultClient with
              | some err => ⟨none, some err, fetched.cache, calls ++ [.NewDefaultClient]⟩
              | none =>
                match w.AuthRep threescaleRequest with
                | .error err =>
                  ⟨none, some err, fetched.cache,
                    calls ++ [.NewDefaultClient, .AuthRep threescaleRequest]⟩
                | .ok success =>
                  ⟨some success, none, fetched.cache,
                    calls ++ [.NewDefaultClient, .AuthRep threescaleRequest]⟩

/-! ## The counter store

The store keeps its counters in a cache of the library `go-cache`. Wall-clock
time is explicit: every operation takes the reading `now` of the clock, in
nanoseconds, that the library obtains from `time.Now()` during the call. -/

/-- The duration `gocache.NoExpiration`. -/
def NoExpiration : Int := -1

/-- The duration `gocache.DefaultExpiration`. -/
def DefaultExpiration : Int := 0

/-- The duration `time.Minute`, in nanoseconds. -/
def Minute : Int := 60 * 1000000000

/-- Modelled from the spec: a CounterEntry, the library's `Item`, which is not
among the source files: the integer value and the instant of expiry
(creation time plus TTL), zero when the entry never expires. -/
structure Item where
  Object : Int
  Expiration : Int
  deriving DecidableEq, Repr

/-- Modelled from the spec: the library's `Cache`, which is not among the
source files: a mapping from string key to CounterEntry, with the default
duration given to `New`. The periodic sweep that reclaims expired entries
is left out, since an expired entry already behaves as absent. -/
structure Cache where
  defaultExpiration : Int
  items : GoMap String Item
  deriving DecidableEq, Repr

/-- Modelled from the spec: `gocache.New(defaultExpiration, cleanupInterval)`,
the cache with no entry. -/
def New (defaultExpiration _cleanupInterval : Int) : Cache :=
  { defaultExpiration := defaultExpiration, items := [] }

/-- Modelled from the spec: `Item.Expired`: after the TTL elapses the entry
behaves as absent; an entry without expiry never does. -/
def Item.Expired (item : Item) (now : Int) : Bool :=
  if item.Expiration = 0 then false else decide (now > item.Expiration)

/-- Modelled from the spec: `Cache.Get`, the existence-checked read: the value
of a live entry, nothing for an absent or expired one. -/
def Cache.Get (c : Cache) (now : Int) (k : String) : Option Int :=
  match GoMap.find c.items k with
  | none => none
  | some item =>
    if item.Expiration > 0 ∧ now > item.Expiration then none else some item.Object

/-- Modelled from the spec: `Cache.Set`: the entry expires a duration `d` after
its creation; the default duration stands in for `DefaultExpiration`, and a
duration that is not positive means no expiry. -/
def Cache.Set (c : Cache) (now : Int) (k : String) (x : Int) (d : Int) : Cache :=
  let d := if d = DefaultExpiration then c.defaultExpiration else d
  let e := if d > 0 then now + d else 0
  { c with items := GoMap.store c.items k { Object := x, Expiration := e } }

/-- Modelled from the spec: `Cache.Add`, create-if-absent: when the key has a
live entry it fails without modifying the existing value, otherwise it stores
the entry; both under one lock. -/
def Cache.Add (c : Cache) (now : Int) (k : String) (x : Int) (d : Int) : Option String × Cache :=
  match c.Get now k with
  | some _ => (some ("Item " ++ k ++ " already exists"), c)
  | none => (none, c.Set now k x d)

/-- Modelled from the spec: `Cache.DecrementInt`: fails with NotFound when the
key has no live entry, otherwise reads, subtracts and writes the `int` under
one lock, keeping the entry's expiry. -/
def Cache.DecrementInt (c : Cache) (now : Int) (k : String) (n : Int) :
    Except String Int × Cache :=
  match GoMap.find c.items k with
  | none => (.error ("Item " ++ k ++ " not found"), c)
  | some v =>
    if v.Expired now then (.error ("Item " ++ k ++ " not found"), c)
    else
      let nv := wrapInt (v.Object - n)
      (.ok nv, { c with items := GoMap.store c.items k { v with Object := nv } })

/-- The type `inMemoryLimitsStorage`. -/
structure inMemoryLimitsStorage where
  internalStorage : Cache
  deriving DecidableEq, Repr

/-- `newInMemoryLimitsStorage()`. -/
def newInMemoryLimitsStorage : inMemoryLimitsStorage :=
  let goCache := New NoExpiration Minute
  { internalStorage := goCache }

/-- `(*inMemoryLimitsStorage).get(key)`. -/
def inMemoryLimitsStorage.get (storage : inMemoryLimitsStorage) (now : Int) (key : String) :
    Int × Bool :=
  match storage.internalStorage.Get now key with
  | none => (0, false)
  | some val => (val, true)

/-- `(*inMemoryLimitsStorage).create(key, value, duration)`: the returned
boolean and the storage after the call. -/
def inMemoryLimitsStorage.create (storage : inMemoryLimitsStorage) (now : Int) (key : String)
    (value : Int) (duration : Int) : Bool × inMemoryLimitsStorage :=
  let added := storage.internalStorage.Add now key value duration
  (added.1.isNone, { internalStorage := added.2 })

/-- `(*inMemoryLimitsStorage).decrement(key, value)`: the returned error
(`none` for `nil`) and the storage after the call. -/
def inMemoryLimitsStorage.decrement (storage : inMemoryLimitsStorage) (now : Int) (key : String)
    (value : Int) : Option String × inMemoryLimitsStorage :=
  let res := storage.internalStorage.DecrementInt now key value
  (match res.1 with | .ok _ => none | .error err => some err, { internalStorage := res.2 })

/-- Decrements applied one after another, each `(now, amount)` at its own clock
reading: the errors returned, in order, and the storage at the end. -/
def decrementAll (key : String) :
    List (Int × Int) → inMemoryLimitsStorage → List (Option String) × inMemoryLimitsStorage
  | [], storage => ([], storage)
  | (now, n) :: rest, storage =>
    let step := storage.decrement now key n
    let after := decrementAll key rest step.2
    (step.1 :: after.1, after.2)

/-- The rule of the specification's end-to-end scenario. -/
def widgetRules : List ProxyRule :=
  [{ Pattern := "^/v1/widgets", MetricSystemName := "hits", Delta := 1 }]

/-- Two matching rules for one metric whose deltas are each an `int64` and add
up to `2^63`, one more than the largest `int`. -/
def largeRules : List ProxyRule :=
  [{ Pattern := "a", MetricSystemName := "hits", Delta := 4611686018427387904 },
   { Pattern := "/", MetricSystemName := "hits", Delta := 4611686018427387904 }]

/-- A rule that matches, a rule whose pattern does not compile, and a rule
that matches. -/
def brokenRules : List ProxyRule :=
  [{ Pattern := "^/v1", MetricSystemName := "hits", Delta := 1 },
   { Pattern := "(", MetricSystemName := "hits", Delta := 1 },
   { Pattern := "widgets", MetricSystemName := "hits", Delta := 1 }]

/-- Whether some rule targeting metric `m` matches the path. -/
def anyMatch (engine : RegexEngine) (path : String) (rules : List ProxyRule) (m : String) : Bool :=
  rules.any (fun r => ruleMatches engine path r && decide (r.MetricSystemName = m))

/-- The loader succeeds in world `w` for the service: the admin portal host
and the access token are set, the admin portal is built, and the fetch that
`proxyConfig` issues returns `config`. -/
def fetchSucceeds (w : World) (serviceId : String) (config : ProxyConfig) : Prop :=
  w.Getenv adminPortalEnv ≠ "" ∧ w.Getenv accessTokenEnv ≠ "" ∧
  ∃ adminPortal,
    w.NewAdminPortal adminPortalScheme (w.Getenv adminPortalEnv) adminPortalPort
      = .ok adminPortal ∧
    w.GetLatestProxyConfig adminPortal (w.Getenv accessTokenEnv) serviceId
      proxyConfigEnvironment = .ok config

/-! ## Sample data for concrete runs -/

/-- Configuration that Porta holds for the production environment. -/
def productionConfig : ProxyConfig :=
  { Content := { BackendAuthenticationType := "service_token",
                 BackendAuthenticationValue := "production-secret",
                 Proxy := { ProxyRules := widgetRules } } }

/-- Configuration that Porta holds for the staging environment. -/
def stagingConfig : ProxyConfig :=
  { Content := { BackendAuthenticationType := "service_token",
                 BackendAuthenticationValue := "staging-secret",
                 Proxy := { ProxyRules := [] } } }

/-- Configuration whose authentication descriptor is empty. -/
def emptyAuthConfig : ProxyConfig :=
  { Content := { BackendAuthenticationType := "",
                 BackendAuthenticationValue := "",
                 Proxy := { ProxyRules := widgetRules } } }

/-- Environment with the three variables set. -/
def sampleGetenv (name : String) : String :=
  if name = adminPortalEnv then "admin.example.com"
  else if name = accessTokenEnv then "token"
  else if name = serviceIdEnv then "svc"
  else ""

/-- World in which every collaborator answers: Porta returns the production
or the staging configuration according to the environment asked for, and the
authorization call reports success. -/
def sampleWorld : World where
  Getenv := sampleGetenv
  NewAdminPortal := fun scheme host port => .ok { scheme := scheme, host := host, port := port }
  GetLatestProxyConfig := fun _ _ _ environment =>
    if environment = "production" then .ok productionConfig
    else if environment = "staging" then .ok stagingConfig
    else .error "proxy config not found"
  NewDefaultClient := none
  AuthRep := fun _ => .ok true

/-- World in which Porta cannot be reached. -/
def offlineWorld : World :=
  { sampleWorld with GetLatestProxyConfig := fun _ _ _ _ => .error "connection refused" }

/-- World in which the admin portal host is not set. -/
def hostlessWorld : World :=
  { sampleWorld with
    Getenv := fun name => if name = adminPortalEnv then "" else sampleGetenv name }

/-- World in which the admin portal cannot be built from the host. -/
def portalErrorWorld : World :=
  { sampleWorld with NewAdminPortal := fun _ _ _ => .error "invalid admin portal" }

/-- World in which the access token is not set. -/
def tokenlessWorld : World :=
  { sampleWorld with
    Getenv := fun name => if name = accessTokenEnv then "" else sampleGetenv name }

/-- World in which Porta returns a configuration with an empty authentication
descriptor. -/
def emptyAuthWorld : World :=
  { sampleWorld with GetLatestProxyConfig := fun _ _ _ _ => .ok emptyAuthConfig }

/-- The admin portal that `sampleWorld` builds. -/
def samplePortal : AdminPortal :=
  { scheme := "https", host := "admin.example.com", port := 443 }

/-! ## Lemmas on maps and integers -/

theorem GoMap.find_store {κ ν : Type} [DecidableEq κ] (m : GoMap κ ν) (k : κ) (v : ν) (k' : κ) :
    GoMap.find (GoMap.store m k v) k' = if k = k' then some v else GoMap.find m k' := by
  induction m with
  | nil => simp [GoMap.store, GoMap.find]
  | cons hd tl ih =>
    obtain ⟨a, b⟩ := hd
    by_cases h : a = k
    · subst h
      by_cases h2 : a = k' <;> simp [GoMap.store, GoMap.find, h2]
    · by_cases h2 : a = k'
      · subst h2
        simp [GoMap.store, GoMap.find, h, Ne.symm h]
      · simp [GoMap.store, GoMap.find, h, h2, ih]

theorem GoMap.find_store_same {κ ν : Type} [DecidableEq κ] (m : GoMap κ ν) (k : κ) (v : ν) :
    GoMap.find (GoMap.store m k v) k = some v := by
  simp [GoMap.find_store]

theorem GoMap.mem_keys_iff {κ ν : Type} [DecidableEq κ] (m : GoMap κ ν) (k : κ) :
    k ∈ GoMap.keys m ↔ (GoMap.find m k).isSome = true := by
  induction m with
  | nil => simp [GoMap.keys, GoMap.find]
  | cons hd tl ih =>
    obtain ⟨a, b⟩ := hd
    by_cases h : a = k
    · simp [GoMap.keys, GoMap.find, h]
    · have ih2 : k ∈ List.map Prod.fst tl ↔ (GoMap.find tl k).isSome = true := ih
      simp [GoMap.keys, GoMap.find, h, Ne.symm h, ih2]

theorem wrapInt_of_inIntRange (x : Int) (h : inIntRange x) : wrapInt x = x := by
  unfold inIntRange minInt maxInt at h
  unfold wrapInt
  omega

theorem wrapInt_inIntRange (x : Int) : inIntRange (wrapInt x) := by
  unfold inIntRange minInt maxInt wrapInt
  omega

theorem wrapInt_add_wrapInt (a b : Int) : wrapInt (a + wrapInt b) = wrapInt (a + b) := by
  unfold wrapInt
  omega

theorem wrapInt_wrapInt_add (a b : Int) : wrapInt (wrapInt a + b) = wrapInt (a + b) := by
  unfold wrapInt
  omega

theorem wrapInt_sub_wrapInt (a b : Int) : wrapInt (wrapInt a - b) = wrapInt (a - b) := by
  unfold wrapInt
  omega

/-! ## The usage loop -/

theorem ruleCompiles_iff (engine : RegexEngine) (r : ProxyRule) :
    ruleCompiles engine r = true ↔ ∃ regex, engine.Compile r.Pattern = .ok regex := by
  unfold ruleCompiles
  cases h : engine.Compile r.Pattern <;> simp

theorem usageLoop_find (engine : RegexEngine) (path : String) (rules : List ProxyRule) :
    ∀ res : Metrics, (∀ r ∈ rules, ruleCompiles engine r = true) →
      (∀ m v, GoMap.find res m = some v → inIntRange v) →
      ∃ usage, usageLoop engine path rules res = .ok usage ∧
        ∀ m, GoMap.find usage m =
          if (GoMap.find res m).isSome || anyMatch engine path rules m then
            some (wrapInt ((GoMap.find res m).getD 0 + matchedDeltaSum engine path rules m))
          else none := by
  induction rules with
  | nil =>
    intro res _ hr
    refine ⟨res, rfl, fun m => ?_⟩
    cases hf : GoMap.find res m with
    | none => simp [anyMatch]
    | some v => simp [anyMatch, matchedDeltaSum, wrapInt_of_inIntRange v (hr m v hf)]
  | cons rule rest ih =>
    intro res hc hr
    have hrest : ∀ r ∈ rest, ruleCompiles engine r = true :=
      fun r hr => hc r (List.mem_cons_of_mem _ hr)
    obtain ⟨regex, hregex⟩ := (ruleCompiles_iff engine rule).1 (hc rule (List.mem_cons_self _ _))
    by_cases hm : engine.Match regex path = true
    · have hrm : ruleMatches engine path rule = true := by simp [ruleMatches, hregex, hm]
      have hr' : ∀ m v, GoMap.find (Metrics.addTo res rule.MetricSystemName (wrapInt rule.Delta)) m
          = some v → inIntRange v := by
        intro m v hf
        unfold Metrics.addTo at hf
        rw [GoMap.find_store] at hf
        by_cases hk : rule.MetricSystemName = m
        · simp [hk] at hf
          rw [← hf]; exact wrapInt_inIntRange _
        · simp [hk] at hf
          exact hr m v hf
      obtain ⟨usage, hu, hfind⟩ := ih _ hrest hr'
      refine ⟨usage, by simp [usageLoop, hregex, hm, hu], fun m => ?_⟩
      rw [hfind m]
      unfold Metrics.addTo
      rw [GoMap.find_store]
      by_cases hk : rule.MetricSystemName = m
      · simp [hk, anyMatch, matchedDeltaSum, hrm, List.filter_cons]
        generalize (List.map (fun r : ProxyRule => r.Delta) _).sum = total
        generalize (GoMap.find res rule.MetricSystemName).getD 0 = old
        unfold wrapInt
        omega
      · simp [hk, anyMatch, matchedDeltaSum, hrm, List.filter_cons]
    · have hrm : ruleMatches engine path rule = false := by simp [ruleMatches, hregex, hm]
      obtain ⟨usage, hu, hfind⟩ := ih res hrest hr
      refine ⟨usage, by simp [usageLoop, hregex, hm, hu], fun m => ?_⟩
      rw [hfind m]
      simp [anyMatch, matchedDeltaSum, hrm, List.filter_cons]

theorem usageLoop_no_match (engine : RegexEngine) (path : String) (rules : List ProxyRule) :
    ∀ res : Metrics, (∀ r ∈ rules, ruleCompiles engine r = true) →
      (∀ r ∈ rules, ruleMatches engine path r = false) →
      usageLoop engine path rules res = .ok res := by
  induction rules with
  | nil => intro res _ _; rfl
  | cons rule rest ih =>
    intro res hc hn
    obtain ⟨regex, hregex⟩ := (ruleCompiles_iff engine rule).1 (hc rule (List.mem_cons_self _ _))
    have hm : ruleMatches engine path rule = false := hn rule (List.mem_cons_self _ _)
    simp only [ruleMatches, hregex] at hm
    simp only [usageLoop, hregex, hm]
    exact ih res (fun r hr => hc r (List.mem_cons_of_mem _ hr))
      (fun r hr => hn r (List.mem_cons_of_mem _ hr))

theorem usageLoop_error_iff (engine : RegexEngine) (path : String) (rules : List ProxyRule) :
    ∀ res : Metrics, (∃ err, usageLoop engine path rules res = .error err) ↔
      ∃ r ∈ rules, ruleCompiles engine r = false := by
  induction rules with
  | nil => intro res; simp [usageLoop]
  | cons rule rest ih =>
    intro res
    cases hregex : engine.Compile rule.Pattern with
    | error e =>
      have : ruleCompiles engine rule = false := by simp [ruleCompiles, hregex]
      simp [usageLoop, hregex, this]
    | ok regex =>
      have hcomp : ruleCompiles engine rule = true := by simp [ruleCompiles, hregex]
      by_cases hm : engine.Match regex path = true
      · simp [usageLoop, hregex, hm, hcomp, ih]
      · simp [usageLoop, hregex, hm, hcomp, ih]

theorem anyMatch_iff (engine : RegexEngine) (path : String) (rules : List ProxyRule) (m : String) :
    anyMatch engine path rules m = true ↔
      ∃ r ∈ rules, ruleMatches engine path r = true ∧ r.MetricSystemName = m := by
  simp [anyMatch]

theorem usageLoop_error_source (engine : RegexEngine) (path : String)
    (rules : List ProxyRule) :
    ∀ (res : Metrics) (err : String), usageLoop engine path rules res = .error err →
      ∃ r ∈ rules, engine.Compile r.Pattern = .error err := by
  induction rules with
  | nil => intro res err h; simp [usageLoop] at h
  | cons rule rest ih =>
    intro res err h
    cases hregex : engine.Compile rule.Pattern with
    | error e =>
      simp only [usageLoop, hregex] at h
      injection h with h
      exact ⟨rule, List.mem_cons_self _ _, by rw [hregex, h]⟩
    | ok regex =>
      simp only [usageLoop, hregex] at h
      split at h
      · obtain ⟨r, hr, hre⟩ := ih _ err h
        exact ⟨r, List.mem_cons_of_mem _ hr, hre⟩
      · obtain ⟨r, hr, hre⟩ := ih _ err h
        exact ⟨r, List.mem_cons_of_mem _ hr, hre⟩

/-! ## Claims on `usageFromMatchedRules` -/

/-- C1, as amended: when every pattern of the rule sequence compiles,
`usageFromMatchedRules` returns no error and a usage map whose key set is
exactly the metric names of the rules that match the path; the value of each
such metric is the sum of `delta` over the matching rules targeting it, reduced
into the range of the 64-bit `int`, hence the exact sum whenever that sum is
representable as an `int`; and the map is empty when no rule matches. -/
theorem usageFromMatchedRules_wrapped_sum (engine : RegexEngine) (path : String)
    (rules : List ProxyRule) (hc : ∀ r ∈ rules, ruleCompiles engine r = true) :
    ∃ usage, usageFromMatchedRules engine path rules = .ok usage ∧
      (∀ m, m ∈ GoMap.keys usage ↔
        ∃ r ∈ rules, ruleMatches engine path r = true ∧ r.MetricSystemName = m) ∧
      (∀ m, m ∈ GoMap.keys usage →
        GoMap.find usage m = some (wrapInt (matchedDeltaSum engine path rules m))) ∧
      (∀ m, m ∈ GoMap.keys usage → inIntRange (matchedDeltaSum engine path rules m) →
        GoMap.find usage m = some (matchedDeltaSum engine path rules m)) ∧
      ((∀ r ∈ rules, ruleMatches engine path r = false) → usage = []) := by
  obtain ⟨usage, hu, hfind⟩ := usageLoop_find engine path rules [] hc
    (fun m v h => by simp [GoMap.find] at h)
  have hkeys : ∀ m, m ∈ GoMap.keys usage ↔ anyMatch engine path rules m = true := by
    intro m
    rw [GoMap.mem_keys_iff, hfind m]
    by_cases ha : anyMatch engine path rules m = true <;> simp [GoMap.find, ha]
  have hval : ∀ m, m ∈ GoMap.keys usage →
      GoMap.find usage m = some (wrapInt (matchedDeltaSum engine path rules m)) := by
    intro m hm
    rw [hfind m]
    simp [GoMap.find, (hkeys m).1 hm]
  refine ⟨usage, hu, ?_, hval, ?_, ?_⟩
  · intro m
    rw [hkeys m, anyMatch_iff]
  · intro m hm hrange
    rw [hval m hm, wrapInt_of_inIntRange _ hrange]
  · intro hn
    have h2 := usageLoop_no_match engine path rules [] hc hn
    rw [h2] at hu
    injection hu with hu
    exact hu.symm

/-- Witness for C1 as amended: the scenario of the specification, path
`/v1/widgets/42` against the rule `^/v1/widgets`. -/
theorem usageFromMatchedRules_wrapped_sum_witness :
    (∀ r ∈ widgetRules, ruleCompiles sampleEngine r = true) ∧
    ∃ usage, usageFromMatchedRules sampleEngine "/v1/widgets/42" widgetRules = .ok usage ∧
      (∀ m, m ∈ GoMap.keys usage ↔
        ∃ r ∈ widgetRules,
          ruleMatches sampleEngine "/v1/widgets/42" r = true ∧ r.MetricSystemName = m) ∧
      (∀ m, m ∈ GoMap.keys usage →
        GoMap.find usage m =
          some (wrapInt (matchedDeltaSum sampleEngine "/v1/widgets/42" widgetRules m))) ∧
      (∀ m, m ∈ GoMap.keys usage →
        inIntRange (matchedDeltaSum sampleEngine "/v1/widgets/42" widgetRules m) →
        GoMap.find usage m =
          some (matchedDeltaSum sampleEngine "/v1/widgets/42" widgetRules m)) ∧
      ((∀ r ∈ widgetRules, ruleMatches sampleEngine "/v1/widgets/42" r = false) → usage = []) :=
  ⟨by decide, usageFromMatchedRules_wrapped_sum sampleEngine "/v1/widgets/42" widgetRules
    (by decide)⟩

/-- C1 as stated fails: two rules that compile and match the path, both
targeting `hits` with delta `2^62`, give the value `-2^63` for `hits`, while
the sum of their deltas is `2^63`. -/
theorem usageFromMatchedRules_sum_counterexample :
    (∀ r ∈ largeRules, ruleCompiles sampleEngine r = true ∧
      ruleMatches sampleEngine "/a" r = true ∧ r.MetricSystemName = "hits") ∧
    usageFromMatchedRules sampleEngine "/a" largeRules
      = .ok [("hits", -9223372036854775808)] ∧
    matchedDeltaSum sampleEngine "/a" largeRules "hits" = 9223372036854775808 ∧
    ¬ (∃ usage, usageFromMatchedRules sampleEngine "/a" largeRules = .ok usage ∧
        GoMap.find usage "hits" = some (matchedDeltaSum sampleEngine "/a" largeRules "hits")) := by
  refine ⟨by decide, by decide, by decide, ?_⟩
  rintro ⟨usage, hu, hf⟩
  have h1 : usageFromMatchedRules sampleEngine "/a" largeRules
      = .ok [("hits", -9223372036854775808)] := by decide
  rw [h1] at hu
  injection hu with hu
  subst hu
  revert hf
  decide

/-- C6: `usageFromMatchedRules` fails if and only if at least one rule of the
sequence has a pattern that does not compile, wherever that rule stands and
whatever the other rules match; the error it returns is the compile error of
such a rule, and no usage map comes with it. -/
theorem usageFromMatchedRules_error_iff (engine : RegexEngine) (path : String)
    (rules : List ProxyRule) :
    ((∃ err, usageFromMatchedRules engine path rules = .error err) ↔
      ∃ r ∈ rules, ruleCompiles engine r = false) ∧
    (∀ err, usageFromMatchedRules engine path rules = .error err →
      (∃ r ∈ rules, engine.Compile r.Pattern = .error err) ∧
      ∀ usage, usageFromMatchedRules engine path rules ≠ .ok usage) := by
  refine ⟨usageLoop_error_iff engine path rules [], fun err h => ⟨?_, ?_⟩⟩
  · exact usageLoop_error_source engine path rules [] err h
  · intro usage hu
    rw [h] at hu
    cases hu

/-- Witness for C6: a rule that does not compile, standing between two rules
that compile and match the path, makes the whole computation fail. -/
theorem usageFromMatchedRules_error_iff_witness :
    (∃ r ∈ brokenRules, ruleCompiles sampleEngine r = false) ∧
    ruleMatches sampleEngine "/v1/widgets" ⟨"^/v1", "hits", 1⟩ = true ∧
    ruleMatches sampleEngine "/v1/widgets" ⟨"widgets", "hits", 1⟩ = true ∧
    ∃ err, usageFromMatchedRules sampleEngine "/v1/widgets" brokenRules = .error err :=
  ⟨by decide, by decide, by decide,
    (usageFromMatchedRules_error_iff sampleEngine "/v1/widgets" brokenRules).1.2 (by decide)⟩


/-! ## Claims on `proxyConfig` -/

theorem PortaConfigsCache.get_set (c : PortaConfigsCache) (serviceId environment : String)
    (config : ProxyConfig) :
    (c.set serviceId environment config).get serviceId environment = some config := by
  simp [PortaConfigsCache.get, PortaConfigsCache.set, GoMap.find_store]

theorem proxyConfig_hit (w : World) (cache : PortaConfigsCache) (serviceId environment : String)
    (config : ProxyConfig) (h : cache.get serviceId environment = some config) :
    proxyConfig w cache serviceId environment = ⟨.ok config, cache, []⟩ := by
  simp [proxyConfig, h]

theorem proxyConfig_miss_success (w : World) (cache : PortaConfigsCache)
    (serviceId environment : String) (config : ProxyConfig)
    (hmiss : cache.get serviceId environment = none) (hload : fetchSucceeds w serviceId config) :
    proxyConfig w cache serviceId environment =
      ⟨.ok config, cache.set serviceId environment config,
        [.Getenv adminPortalEnv,
         .NewAdminPortal adminPortalScheme (w.Getenv adminPortalEnv) adminPortalPort,
         .Getenv accessTokenEnv,
         .GetLatestProxyConfig serviceId proxyConfigEnvironment]⟩ := by
  obtain ⟨hhost, htoken, adminPortal, hportal, hfetch⟩ := hload
  simp [proxyConfig, hmiss, hhost, htoken, hportal, hfetch]

theorem proxyConfigSeq_hit (serviceId environment : String) (config : ProxyConfig)
    (ws : List World) :
    ∀ cache : PortaConfigsCache, cache.get serviceId environment = some config →
      proxyConfigSeq serviceId environment ws cache =
        (List.replicate ws.length (.ok config), cache, []) := by
  induction ws with
  | nil => intro cache _; rfl
  | cons w ws ih =>
    intro cache h
    simp [proxyConfigSeq, proxyConfig_hit w cache serviceId environment config h, ih cache h,
      List.replicate_succ]

theorem proxyConfig_miss_calls (w : World) (cache : PortaConfigsCache)
    (serviceId environment : String) (hmiss : cache.get serviceId environment = none) :
    (proxyConfig w cache serviceId environment).calls.head? = some (.Getenv adminPortalEnv) := by
  unfold proxyConfig
  simp only [hmiss]
  split
  · rfl
  · split
    · rfl
    · split
      · rfl
      · split <;> rfl

theorem proxyConfig_error_cases (w : World) (cache : PortaConfigsCache)
    (serviceId environment : String) (err : String)
    (hfail : (proxyConfig w cache serviceId environment).result = .error err) :
    (proxyConfig w cache serviceId environment).cache = cache ∧
    (cache.get serviceId environment = none) ∧
    ((w.Getenv adminPortalEnv = "" ∧ err = "admin portal not set") ∨
     (w.NewAdminPortal adminPortalScheme (w.Getenv adminPortalEnv) adminPortalPort
        = .error err) ∨
     (w.Getenv accessTokenEnv = "" ∧ err = "access token not set") ∨
     (∃ adminPortal, w.GetLatestProxyConfig adminPortal (w.Getenv accessTokenEnv) serviceId
        proxyConfigEnvironment = .error err)) := by
  unfold proxyConfig at hfail ⊢
  cases hget : cache.get serviceId environment with
  | some c => simp [hget] at hfail
  | none =>
    simp only [hget] at hfail ⊢
    by_cases hhost : w.Getenv adminPortalEnv = ""
    · simp only [hhost, if_true] at hfail ⊢
      injection hfail with hfail
      subst hfail
      simp
    · simp only [hhost, if_false] at hfail ⊢
      cases hportal : w.NewAdminPortal adminPortalScheme (w.Getenv adminPortalEnv)
          adminPortalPort with
      | error e =>
        simp only [hportal] at hfail ⊢
        injection hfail with hfail
        subst hfail
        simp
      | ok adminPortal =>
        simp only [hportal] at hfail ⊢
        by_cases htoken : w.Getenv accessTokenEnv = ""
        · simp only [htoken, if_true] at hfail ⊢
          injection hfail with hfail
          subst hfail
          simp
        · simp only [htoken, if_false] at hfail ⊢
          cases hfetch : w.GetLatestProxyConfig adminPortal (w.Getenv accessTokenEnv) serviceId
              proxyConfigEnvironment with
          | error e =>
            simp only [hfetch] at hfail ⊢
            injection hfail with hfail
            subst hfail
            simp only [true_and]
            exact Or.inr (Or.inr (Or.inr ⟨adminPortal, hfetch⟩))
          | ok config => simp [hfetch] at hfail

/-- C2: starting from a cache with no entry for the key, with a loader that
succeeds, `N = ws.length + 1` successive calls of `proxyConfig` for that key
make exactly one fetch from Porta, every caller receives the configuration
that this one fetch returned, and the cache ends up holding it. Only the world
of the first call matters; the later calls are served from the cache whatever
their world is. -/
theorem proxyConfig_single_fetch (serviceId environment : String) (w : World) (ws : List World)
    (cache : PortaConfigsCache) (config : ProxyConfig)
    (hmiss : cache.get serviceId environment = none)
    (hload : fetchSucceeds w serviceId config) :
    (proxyConfigSeq serviceId environment (w :: ws) cache).1
      = List.replicate (ws.length + 1) (.ok config) ∧
    ((proxyConfigSeq serviceId environment (w :: ws) cache).2.2.filter Call.isFetch).length = 1 ∧
    (proxyConfigSeq serviceId environment (w :: ws) cache).2.1.get serviceId environment
      = some config := by
  have h1 := proxyConfig_miss_success w cache serviceId environment config hmiss hload
  have h2 := proxyConfigSeq_hit serviceId environment config ws
    (cache.set serviceId environment config) (PortaConfigsCache.get_set _ _ _ _)
  simp [proxyConfigSeq, h1, h2, List.replicate_succ, Call.isFetch, PortaConfigsCache.get_set]

/-- Witness for C2: three successive calls for the key `("svc", "production")`
on the empty cache, in a world where the fetch succeeds. -/
theorem proxyConfig_single_fetch_witness :
    newPortaConfigsCache.get "svc" "production" = none ∧
    fetchSucceeds sampleWorld "svc" productionConfig ∧
    (proxyConfigSeq "svc" "production" [sampleWorld, sampleWorld, offlineWorld]
        newPortaConfigsCache).1
      = [.ok productionConfig, .ok productionConfig, .ok productionConfig] ∧
    ((proxyConfigSeq "svc" "production" [sampleWorld, sampleWorld, offlineWorld]
        newPortaConfigsCache).2.2.filter Call.isFetch).length = 1 :=
  have hload : fetchSucceeds sampleWorld "svc" productionConfig :=
    ⟨by decide, by decide, samplePortal, by decide, by decide⟩
  have h := proxyConfig_single_fetch "svc" "production" sampleWorld [sampleWorld, offlineWorld]
    newPortaConfigsCache productionConfig (by decide) hload
  ⟨by decide, hload, h.1, h.2.1⟩

theorem proxyConfig_next_after_miss (w' : World) (cache : PortaConfigsCache)
    (serviceId environment : String) (hmiss : cache.get serviceId environment = none) :
    (proxyConfig w' cache serviceId environment).calls.head? = some (.Getenv adminPortalEnv) ∧
    ∀ config, fetchSucceeds w' serviceId config →
      (proxyConfig w' cache serviceId environment).result = .ok config ∧
      ((proxyConfig w' cache serviceId environment).calls.filter Call.isFetch).length = 1 ∧
      (proxyConfig w' cache serviceId environment).cache.get serviceId environment
        = some config := by
  refine ⟨proxyConfig_miss_calls w' cache serviceId environment hmiss, fun config hload => ?_⟩
  rw [proxyConfig_miss_success w' cache serviceId environment config hmiss hload]
  simp [Call.isFetch, PortaConfigsCache.get_set]

/-- C3: for a key with no cached entry, each way the load can fail makes
`proxyConfig` return that failure's error, with no configuration, and leave
the cache as it was: the admin portal host is not set (`admin portal not
set`), the admin portal cannot be built (its error), the access token is not
set (`access token not set`), or the fetch from Porta fails (its error). These
are the only failures. After any of them the key still has no entry, and the
next call for the same key, in whatever world it finds, is not served from
the cache: it starts the load again, and when the loader succeeds there it
fetches from Porta once, returns the fetched configuration and stores it. -/
theorem proxyConfig_failure_not_cached (w : World) (cache : PortaConfigsCache)
    (serviceId environment : String)
    (hmiss : cache.get serviceId environment = none) :
    (w.Getenv adminPortalEnv = "" →
      (proxyConfig w cache serviceId environment).result = .error "admin portal not set" ∧
      (proxyConfig w cache serviceId environment).cache = cache) ∧
    (∀ e, w.Getenv adminPortalEnv ≠ "" →
      w.NewAdminPortal adminPortalScheme (w.Getenv adminPortalEnv) adminPortalPort = .error e →
      (proxyConfig w cache serviceId environment).result = .error e ∧
      (proxyConfig w cache serviceId environment).cache = cache) ∧
    (∀ adminPortal, w.Getenv adminPortalEnv ≠ "" →
      w.NewAdminPortal adminPortalScheme (w.Getenv adminPortalEnv) adminPortalPort
        = .ok adminPortal →
      w.Getenv accessTokenEnv = "" →
      (proxyConfig w cache serviceId environment).result = .error "access token not set" ∧
      (proxyConfig w cache serviceId environment).cache = cache) ∧
    (∀ adminPortal e, w.Getenv adminPortalEnv ≠ "" →
      w.NewAdminPortal adminPortalScheme (w.Getenv adminPortalEnv) adminPortalPort
        = .ok adminPortal →
      w.Getenv accessTokenEnv ≠ "" →
      w.GetLatestProxyConfig adminPortal (w.Getenv accessTokenEnv) serviceId
        proxyConfigEnvironment = .error e →
      (proxyConfig w cache serviceId environment).result = .error e ∧
      (proxyConfig w cache serviceId environment).cache = cache) ∧
    (∀ err, (proxyConfig w cache serviceId environment).result = .error err →
      (proxyConfig w cache serviceId environment).cache = cache ∧
      ((w.Getenv adminPortalEnv = "" ∧ err = "admin portal not set") ∨
       (w.NewAdminPortal adminPortalScheme (w.Getenv adminPortalEnv) adminPortalPort
          = .error err) ∨
       (w.Getenv accessTokenEnv = "" ∧ err = "access token not set") ∨
       (∃ adminPortal, w.GetLatestProxyConfig adminPortal (w.Getenv accessTokenEnv) serviceId
          proxyConfigEnvironment = .error err)) ∧
      ∀ w' : World,
        (proxyConfig w' (proxyConfig w cache serviceId environment).cache serviceId
            environment).calls.head? = some (.Getenv adminPortalEnv) ∧
        ∀ config, fetchSucceeds w' serviceId config →
          (proxyConfig w' (proxyConfig w cache serviceId environment).cache serviceId
              environment).result = .ok config ∧
          ((proxyConfig w' (proxyConfig w cache serviceId environment).cache serviceId
              environment).calls.filter Call.isFetch).length = 1 ∧
          (proxyConfig w' (proxyConfig w cache serviceId environment).cache serviceId
              environment).cache.get serviceId environment = some config) := by
  refine ⟨?_, ?_, ?_, ?_, ?_⟩
  · intro hhost
    simp [proxyConfig, hmiss, hhost]
  · intro e hhost hportal
    simp [proxyConfig, hmiss, hhost, hportal]
  · intro adminPortal hhost hportal htoken
    simp [proxyConfig, hmiss, hhost, hportal, htoken]
  · intro adminPortal e hhost hportal htoken hfetch
    simp [proxyConfig, hmiss, hhost, hportal, htoken, hfetch]
  · intro err hfail
    obtain ⟨hcache, _, hcases⟩ := proxyConfig_error_cases w cache serviceId environment err hfail
    refine ⟨hcache, hcases, fun w' => ?_⟩
    rw [hcache]
    exact proxyConfig_next_after_miss w' cache serviceId environment hmiss

/-- Witness for C3: on the empty cache, each of the four failures returns its
error and caches nothing, and after the failed fetch the next call fetches
again. -/
theorem proxyConfig_failure_not_cached_witness :
    newPortaConfigsCache.get "svc" "production" = none ∧
    ((proxyConfig hostlessWorld newPortaConfigsCache "svc" "production").result
        = .error "admin portal not set" ∧
      (proxyConfig hostlessWorld newPortaConfigsCache "svc" "production").cache
        = newPortaConfigsCache) ∧
    ((proxyConfig portalErrorWorld newPortaConfigsCache "svc" "production").result
        = .error "invalid admin portal" ∧
      (proxyConfig portalErrorWorld newPortaConfigsCache "svc" "production").cache
        = newPortaConfigsCache) ∧
    ((proxyConfig tokenlessWorld newPortaConfigsCache "svc" "production").result
        = .error "access token not set" ∧
      (proxyConfig tokenlessWorld newPortaConfigsCache "svc" "production").cache
        = newPortaConfigsCache) ∧
    ((proxyConfig offlineWorld newPortaConfigsCache "svc" "production").result
        = .error "connection refused" ∧
      (proxyConfig offlineWorld newPortaConfigsCache "svc" "production").cache
        = newPortaConfigsCache) ∧
    (proxyConfig sampleWorld
        (proxyConfig offlineWorld newPortaConfigsCache "svc" "production").cache
        "svc" "production").result = .ok productionConfig :=
  ⟨by decide,
    (proxyConfig_failure_not_cached hostlessWorld newPortaConfigsCache "svc" "production"
      (by decide)).1 (by decide),
    (proxyConfig_failure_not_cached portalErrorWorld newPortaConfigsCache "svc" "production"
      (by decide)).2.1 "invalid admin portal" (by decide) (by decide),
    (proxyConfig_failure_not_cached tokenlessWorld newPortaConfigsCache "svc" "production"
      (by decide)).2.2.1 samplePortal (by decide) (by decide) (by decide),
    (proxyConfig_failure_not_cached offlineWorld newPortaConfigsCache "svc" "production"
      (by decide)).2.2.2.1 samplePortal "connection refused" (by decide) (by decide) (by decide)
      (by decide),
    ((((proxyConfig_failure_not_cached offlineWorld newPortaConfigsCache "svc" "production"
      (by decide)).2.2.2.2 "connection refused" (by decide)).2.2 sampleWorld).2 productionConfig
      ⟨by decide, by decide, samplePortal, by decide, by decide⟩).1⟩

theorem proxyConfig_calls_kind (w : World) (cache : PortaConfigsCache)
    (serviceId environment : String) :
    (proxyConfig w cache serviceId environment).calls.filter Call.isAuthRep = [] ∧
    Call.NewDefaultClient ∉ (proxyConfig w cache serviceId environment).calls := by
  unfold proxyConfig
  dsimp only
  repeat' split
  all_goals simp [Call.isAuthRep]

theorem proxyConfig_calls_not_authRep (w : World) (cache : PortaConfigsCache)
    (serviceId environment : String) :
    (proxyConfig w cache serviceId environment).calls.filter Call.isAuthRep = [] :=
  (proxyConfig_calls_kind w cache serviceId environment).1

/-- C4: `appCredsFromRequest` returns the user-key credential, carrying the
value of `user_key` and no app id or key, when `user_key` is non-empty;
otherwise the app-id-and-key credential carrying both values when `app_id` and
`app_key` are both non-empty; otherwise nothing, and then
`AuthrepWithThreescaleImpl`, once the service id is resolved and the
configuration obtained, fails with `app credentials not found`, returning
`false` and making no authorization call. -/
theorem appCredsFromRequest_cases (path : String) (args : GoMap String String) :
    (argOf args "user_key" ≠ "" →
      appCredsFromRequest ⟨path, args⟩
        = some { AppID := "", AppKey := "", UserKey := argOf args "user_key" }) ∧
    (argOf args "user_key" = "" → argOf args "app_id" ≠ "" → argOf args "app_key" ≠ "" →
      appCredsFromRequest ⟨path, args⟩
        = some { AppID := argOf args "app_id", AppKey := argOf args "app_key", UserKey := "" }) ∧
    (argOf args "user_key" = "" → (argOf args "app_id" = "" ∨ argOf args "app_key" = "") →
      appCredsFromRequest ⟨path, args⟩ = none ∧
      ∀ (engine : RegexEngine) (w : World) (cache : PortaConfigsCache) (config : ProxyConfig),
        serviceFromEnv w ≠ "" →
        (proxyConfig w cache (serviceFromEnv w) proxyConfigEnvironment).result = .ok config →
        (AuthrepWithThreescaleImpl engine w cache ⟨path, args⟩).value = some false ∧
        (AuthrepWithThreescaleImpl engine w cache ⟨path, args⟩).err
          = some "app credentials not found" ∧
        (AuthrepWithThreescaleImpl engine w cache ⟨path, args⟩).calls.filter Call.isAuthRep
          = []) := by
  refine ⟨?_, ?_, ?_⟩
  · intro hu
    simp [appCredsFromRequest, userKeyFromRequest, hu]
  · intro hu hid hkey
    simp [appCredsFromRequest, userKeyFromRequest, appIdAndKeyFromRequest, hu, hid, hkey]
  · intro hu hpair
    have hnone : appCredsFromRequest ⟨path, args⟩ = none := by
      rcases hpair with h | h <;>
        simp [appCredsFromRequest, userKeyFromRequest, appIdAndKeyFromRequest, hu, h]
    refine ⟨hnone, fun engine w cache config hservice hconfig => ?_⟩
    have hcalls := proxyConfig_calls_not_authRep w cache (serviceFromEnv w) proxyConfigEnvironment
    simp [AuthrepWithThreescaleImpl, hservice, hconfig, clientAuthFromProxyConfig, hnone,
      Call.isAuthRep, hcalls]

/-- Witness for C4: the two requests of the specification's scenario, one with
`app_id` and `app_key`, one with `app_id` only. -/
theorem appCredsFromRequest_cases_witness :
    appCredsFromRequest ⟨"/v1/widgets/42", [("app_id", "a"), ("app_key", "k")]⟩
      = some { AppID := "a", AppKey := "k", UserKey := "" } ∧
    appCredsFromRequest ⟨"/v1/widgets/42", [("app_id", "a")]⟩ = none ∧
    (AuthrepWithThreescaleImpl sampleEngine sampleWorld newPortaConfigsCache
        ⟨"/v1/widgets/42", [("app_id", "a")]⟩).err = some "app credentials not found" :=
  ⟨(appCredsFromRequest_cases "/v1/widgets/42" [("app_id", "a"), ("app_key", "k")]).2.1
      (by decide) (by decide) (by decide),
    ((appCredsFromRequest_cases "/v1/widgets/42" [("app_id", "a")]).2.2
      (by decide) (Or.inr (by decide))).1,
    (((appCredsFromRequest_cases "/v1/widgets/42" [("app_id", "a")]).2.2
      (by decide) (Or.inr (by decide))).2 sampleEngine sampleWorld newPortaConfigsCache
        productionConfig (by decide) (by decide)).2.1⟩

/-- C5: when the service id is resolved, the configuration is obtained, the
caller credentials are derived, every rule pattern compiles and no rule
matches the request path, `AuthrepWithThreescaleImpl` returns `false` with no
error, and neither builds the Apisonator client nor makes the authorization
call. -/
theorem AuthrepWithThreescaleImpl_no_match_denies (engine : RegexEngine) (w : World)
    (cache : PortaConfigsCache) (req : Input) (config : ProxyConfig) (appCreds : Params)
    (hservice : serviceFromEnv w ≠ "")
    (hconfig : (proxyConfig w cache (serviceFromEnv w) proxyConfigEnvironment).result
      = .ok config)
    (hcreds : appCredsFromRequest req = some appCreds)
    (hcompile : ∀ r ∈ config.Content.Proxy.ProxyRules, ruleCompiles engine r = true)
    (hnomatch : ∀ r ∈ config.Content.Proxy.ProxyRules, ruleMatches engine req.Path r = false) :
    (AuthrepWithThreescaleImpl engine w cache req).value = some false ∧
    (AuthrepWithThreescaleImpl engine w cache req).err = none ∧
    (AuthrepWithThreescaleImpl engine w cache req).calls.filter Call.isAuthRep = [] ∧
    Call.NewDefaultClient ∉ (AuthrepWithThreescaleImpl engine w cache req).calls ∧
    (AuthrepWithThreescaleImpl engine w cache req).calls
      = .Getenv serviceIdEnv ::
          (proxyConfig w cache (serviceFromEnv w) proxyConfigEnvironment).calls := by
  have husage : usageFromMatchedRules engine req.Path config.Content.Proxy.ProxyRules = .ok [] :=
    usageLoop_no_match engine req.Path _ [] hcompile hnomatch
  have hcalls := proxyConfig_calls_not_authRep w cache (serviceFromEnv w) proxyConfigEnvironment
  have hno := (proxyConfig_calls_kind w cache (serviceFromEnv w) proxyConfigEnvironment).2
  simp [AuthrepWithThreescaleImpl, hservice, hconfig, clientAuthFromProxyConfig, hcreds, husage,
    Call.isAuthRep, hcalls, hno]

/-- Witness for C5: the scenario of the specification, path `/v1/other` against
the rule `^/v1/widgets`. -/
theorem AuthrepWithThreescaleImpl_no_match_denies_witness :
    (AuthrepWithThreescaleImpl sampleEngine sampleWorld newPortaConfigsCache
        ⟨"/v1/other", [("user_key", "uk")]⟩).value = some false ∧
    (AuthrepWithThreescaleImpl sampleEngine sampleWorld newPortaConfigsCache
        ⟨"/v1/other", [("user_key", "uk")]⟩).err = none ∧
    (AuthrepWithThreescaleImpl sampleEngine sampleWorld newPortaConfigsCache
        ⟨"/v1/other", [("user_key", "uk")]⟩).calls.filter Call.isAuthRep = [] :=
  have h := AuthrepWithThreescaleImpl_no_match_denies sampleEngine sampleWorld
    newPortaConfigsCache ⟨"/v1/other", [("user_key", "uk")]⟩ productionConfig
    { AppID := "", AppKey := "", UserKey := "uk" }
    (by decide) (by decide) (by decide) (by decide) (by decide)
  ⟨h.1, h.2.1, h.2.2.1⟩

/-- C7 fails on the code: `clientAuthFromProxyConfig` never returns `nil`, so
the check for missing service credentials never fires. With a fetched
configuration whose authentication type and value are both empty,
`AuthrepWithThreescaleImpl` goes on to the caller credentials and the usage,
makes the authorization call with the empty client credential and returns
its answer without error. -/
theorem AuthrepWithThreescaleImpl_empty_descriptor_proceeds :
    (∀ config : ProxyConfig, clientAuthFromProxyConfig config ≠ none) ∧
    (proxyConfig emptyAuthWorld newPortaConfigsCache "svc" "production").result
      = .ok emptyAuthConfig ∧
    emptyAuthConfig.Content.BackendAuthenticationType = "" ∧
    emptyAuthConfig.Content.BackendAuthenticationValue = "" ∧
    (AuthrepWithThreescaleImpl sampleEngine emptyAuthWorld newPortaConfigsCache
        ⟨"/v1/widgets/42", [("user_key", "uk")]⟩).value = some true ∧
    (AuthrepWithThreescaleImpl sampleEngine emptyAuthWorld newPortaConfigsCache
        ⟨"/v1/widgets/42", [("user_key", "uk")]⟩).err = none ∧
    (AuthrepWithThreescaleImpl sampleEngine emptyAuthWorld newPortaConfigsCache
        ⟨"/v1/widgets/42", [("user_key", "uk")]⟩).calls.filter Call.isAuthRep
      = [.AuthRep { Auth := { Type_ := "", Value := "" }, Service := "svc",
                    Transactions := [{ Metrics := [("hits", 1)],
                                       Params := { AppID := "", AppKey := "",
                                                   UserKey := "uk" } }] }] := by
  refine ⟨fun config => by simp [clientAuthFromProxyConfig], by decide, by decide, by decide,
    by decide, by decide, by decide⟩


/-! ## Claims on the counter store -/

theorem Cache.Get_of_find (c : Cache) (t : Int) (k : String) (x e : Int)
    (hfind : GoMap.find c.items k = some { Object := x, Expiration := e })
    (hlive : e = 0 ∨ t ≤ e) : c.Get t k = some x := by
  unfold Cache.Get
  simp only [hfind]
  have : ¬ (e > 0 ∧ t > e) := by omega
  simp [this]

theorem inMemoryLimitsStorage.get_of_find (s : inMemoryLimitsStorage) (t : Int) (k : String)
    (x e : Int)
    (hfind : GoMap.find s.internalStorage.items k = some { Object := x, Expiration := e })
    (hlive : e = 0 ∨ t ≤ e) : s.get t k = (x, true) := by
  simp [inMemoryLimitsStorage.get, Cache.Get_of_find s.internalStorage t k x e hfind hlive]

theorem inMemoryLimitsStorage.create_fresh (s : inMemoryLimitsStorage) (t : Int) (k : String)
    (v ttl : Int) (hdef : s.internalStorage.defaultExpiration = NoExpiration)
    (hfree : (s.get t k).2 = false) :
    (s.create t k v ttl).1 = true ∧
    (s.create t k v ttl).2.internalStorage.defaultExpiration = NoExpiration ∧
    GoMap.find (s.create t k v ttl).2.internalStorage.items k
      = some { Object := v, Expiration := if ttl > 0 then t + ttl else 0 } := by
  have hnone : s.internalStorage.Get t k = none := by
    unfold inMemoryLimitsStorage.get at hfree
    cases h : s.internalStorage.Get t k with
    | none => rfl
    | some val => simp [h] at hfree
  unfold inMemoryLimitsStorage.create Cache.Add
  simp only [hnone, Cache.Set, hdef, NoExpiration, DefaultExpiration, GoMap.find_store_same]
  by_cases h0 : ttl = 0
  · subst h0; simp
  · simp [h0]

theorem inMemoryLimitsStorage.create_true_free (s : inMemoryLimitsStorage) (t : Int)
    (k : String) (v ttl : Int) (h : (s.create t k v ttl).1 = true) : (s.get t k).2 = false := by
  unfold inMemoryLimitsStorage.create Cache.Add at h
  unfold inMemoryLimitsStorage.get
  cases hg : s.internalStorage.Get t k with
  | none => rfl
  | some val => simp [hg] at h

theorem inMemoryLimitsStorage.create_live (s : inMemoryLimitsStorage) (t : Int) (k : String)
    (w ttl x : Int) (h : s.internalStorage.Get t k = some x) :
    s.create t k w ttl = (false, s) := by
  simp [inMemoryLimitsStorage.create, Cache.Add, h]

theorem inMemoryLimitsStorage.decrement_live (s : inMemoryLimitsStorage) (t : Int) (k : String)
    (n x e : Int)
    (hfind : GoMap.find s.internalStorage.items k = some { Object := x, Expiration := e })
    (hlive : e = 0 ∨ t ≤ e) :
    (s.decrement t k n).1 = none ∧
    GoMap.find (s.decrement t k n).2.internalStorage.items k
      = some { Object := wrapInt (x - n), Expiration := e } := by
  have hexp : Item.Expired { Object := x, Expiration := e } t = false := by
    unfold Item.Expired
    by_cases h0 : e = 0
    · simp [h0]
    · have : ¬ t > e := by omega
      simp [h0, this]
  simp [inMemoryLimitsStorage.decrement, Cache.DecrementInt, hfind, hexp, GoMap.find_store_same]

theorem decrementAll_live (key : String) (ops : List (Int × Int)) :
    ∀ (s : inMemoryLimitsStorage) (x e : Int),
      GoMap.find s.internalStorage.items key = some { Object := x, Expiration := e } →
      inIntRange x → (∀ op ∈ ops, e = 0 ∨ op.1 ≤ e) →
      (∀ err ∈ (decrementAll key ops s).1, err = none) ∧
      (decrementAll key ops s).1.length = ops.length ∧
      GoMap.find (decrementAll key ops s).2.internalStorage.items key
        = some { Object := wrapInt (x - (ops.map Prod.snd).sum), Expiration := e } := by
  induction ops with
  | nil =>
    intro s x e hfind hx _
    simp [decrementAll, hfind, wrapInt_of_inIntRange x hx]
  | cons op rest ih =>
    intro s x e hfind hx hlive
    obtain ⟨t, n⟩ := op
    obtain ⟨herr, hstep⟩ := inMemoryLimitsStorage.decrement_live s t key n x e hfind
      (hlive (t, n) (List.mem_cons_self _ _))
    obtain ⟨h1, h2, h3⟩ := ih (s.decrement t key n).2 (wrapInt (x - n)) e hstep
      (wrapInt_inIntRange _) (fun op hop => hlive op (List.mem_cons_of_mem _ hop))
    refine ⟨?_, ?_, ?_⟩
    · intro err herr'
      simp only [decrementAll, List.mem_cons] at herr'
      rcases herr' with h | h
      · rw [h, herr]
      · exact h1 err h
    · simp [decrementAll, h2]
    · simp only [decrementAll, h3, List.map_cons, List.sum_cons]
      rw [wrapInt_sub_wrapInt]
      congr 3
      ring

/-- C8: on a store built by `newInMemoryLimitsStorage` (default duration
`NoExpiration`), for a key with no live entry, any values `v` and `w` and any
TTLs, `create(key, v, ttl)` returns true, a `create(key, w, ttl2)` that follows
before the first TTL elapses (in particular one at the same clock reading)
returns false and leaves the store as it was, and `get(key)` is then
`(v, true)`. -/
theorem create_twice_keeps_first (s : inMemoryLimitsStorage) (key : String)
    (v w ttl ttl2 : Int) (t1 t2 t3 : Int)
    (hdef : s.internalStorage.defaultExpiration = NoExpiration)
    (hfree : (s.get t1 key).2 = false)
    (hsoon : 0 < ttl → t2 ≤ t1 + ttl ∧ t3 ≤ t1 + ttl) :
    (s.create t1 key v ttl).1 = true ∧
    ((s.create t1 key v ttl).2.create t2 key w ttl2).1 = false ∧
    ((s.create t1 key v ttl).2.create t2 key w ttl2).2 = (s.create t1 key v ttl).2 ∧
    (((s.create t1 key v ttl).2.create t2 key w ttl2).2.get t3 key) = (v, true) := by
  obtain ⟨hc, _, hfind⟩ := inMemoryLimitsStorage.create_fresh s t1 key v ttl hdef hfree
  have hlive2 : (if ttl > 0 then t1 + ttl else 0) = 0 ∨ t2 ≤ (if ttl > 0 then t1 + ttl else 0) := by
    by_cases h : ttl > 0
    · simp only [h, if_true]; exact Or.inr (hsoon h).1
    · simp [h]
  have hlive3 : (if ttl > 0 then t1 + ttl else 0) = 0 ∨ t3 ≤ (if ttl > 0 then t1 + ttl else 0) := by
    by_cases h : ttl > 0
    · simp only [h, if_true]; exact Or.inr (hsoon h).2
    · simp [h]
  have hget2 := Cache.Get_of_find (s.create t1 key v ttl).2.internalStorage t2 key v _ hfind hlive2
  have hsecond := inMemoryLimitsStorage.create_live (s.create t1 key v ttl).2 t2 key w ttl2 v hget2
  refine ⟨hc, by rw [hsecond], by rw [hsecond], ?_⟩
  rw [hsecond]
  exact inMemoryLimitsStorage.get_of_find _ t3 key v _ hfind hlive3

/-- Witness for C8: two creates and a read at the same clock reading on the
new store, the first with a TTL of one nanosecond. -/
theorem create_twice_keeps_first_witness :
    (newInMemoryLimitsStorage.get 1000 "bucket").2 = false ∧
    (newInMemoryLimitsStorage.create 1000 "bucket" 5 1).1 = true ∧
    ((newInMemoryLimitsStorage.create 1000 "bucket" 5 1).2.create 1000 "bucket" 9 60).1 = false ∧
    (((newInMemoryLimitsStorage.create 1000 "bucket" 5 1).2.create 1000 "bucket" 9 60).2.get
        1000 "bucket") = (5, true) :=
  have h := create_twice_keeps_first newInMemoryLimitsStorage "bucket" 5 9 1 60 1000 1000 1000
    (by decide) (by decide) (fun _ => ⟨by decide, by decide⟩)
  ⟨by decide, h.1, h.2.1, h.2.2.2⟩

/-- C9, as amended: after a successful `create(key, v, ttl)` of an `int` `v`,
decrements `n1..nk` applied before the TTL elapses each return no error and
leave `get(key) = (r, true)`, where `r` is `v - (n1 + ... + nk)` reduced into
the range of the 64-bit `int`, hence `v - (n1 + ... + nk)` itself whenever
that is representable as an `int`; the outcome is the same for every order of
the decrements. -/
theorem decrement_wrapped_difference (s : inMemoryLimitsStorage) (key : String)
    (v ttl t0 tg : Int) (ops : List (Int × Int))
    (hdef : s.internalStorage.defaultExpiration = NoExpiration)
    (hv : inIntRange v)
    (hcreate : (s.create t0 key v ttl).1 = true)
    (hlive : 0 < ttl → (∀ op ∈ ops, op.1 ≤ t0 + ttl) ∧ tg ≤ t0 + ttl) :
    (∀ err ∈ (decrementAll key ops (s.create t0 key v ttl).2).1, err = none) ∧
    (decrementAll key ops (s.create t0 key v ttl).2).1.length = ops.length ∧
    (decrementAll key ops (s.create t0 key v ttl).2).2.get tg key
      = (wrapInt (v - (ops.map Prod.snd).sum), true) ∧
    (inIntRange (v - (ops.map Prod.snd).sum) →
      (decrementAll key ops (s.create t0 key v ttl).2).2.get tg key
        = (v - (ops.map Prod.snd).sum, true)) ∧
    (∀ ops2, List.Perm ops ops2 →
      (decrementAll key ops2 (s.create t0 key v ttl).2).2.get tg key
        = (decrementAll key ops (s.create t0 key v ttl).2).2.get tg key) := by
  obtain ⟨_, _, hfind⟩ := inMemoryLimitsStorage.create_fresh s t0 key v ttl hdef
    (inMemoryLimitsStorage.create_true_free s t0 key v ttl hcreate)
  have hall : ∀ ops2 : List (Int × Int), (∀ op ∈ ops2, 0 < ttl → op.1 ≤ t0 + ttl) →
      (∀ err ∈ (decrementAll key ops2 (s.create t0 key v ttl).2).1, err = none) ∧
      (decrementAll key ops2 (s.create t0 key v ttl).2).1.length = ops2.length ∧
      (decrementAll key ops2 (s.create t0 key v ttl).2).2.get tg key
        = (wrapInt (v - (ops2.map Prod.snd).sum), true) := by
    intro ops2 h2
    have hl : ∀ op ∈ ops2, (if ttl > 0 then t0 + ttl else 0) = 0 ∨
        op.1 ≤ (if ttl > 0 then t0 + ttl else 0) := by
      intro op hop
      by_cases h : ttl > 0
      · simp only [h, if_true]; exact Or.inr (h2 op hop h)
      · simp [h]
    have hg : (if ttl > 0 then t0 + ttl else 0) = 0 ∨ tg ≤ (if ttl > 0 then t0 + ttl else 0) := by
      by_cases h : ttl > 0
      · simp only [h, if_true]; exact Or.inr (hlive h).2
      · simp [h]
    obtain ⟨h1, h2, h3⟩ := decrementAll_live key ops2 (s.create t0 key v ttl).2 v _ hfind hv hl
    exact ⟨h1, h2, inMemoryLimitsStorage.get_of_find _ tg key _ _ h3 hg⟩
  obtain ⟨h1, h2, h3⟩ := hall ops (fun op hop h => (hlive h).1 op hop)
  refine ⟨h1, h2, h3, ?_, ?_⟩
  · intro hr
    rw [h3, wrapInt_of_inIntRange _ hr]
  · intro ops2 hperm
    obtain ⟨_, _, h4⟩ := hall ops2 (fun op hop h => (hlive h).1 op (hperm.symm.subset hop))
    rw [h3, h4, (hperm.map Prod.snd).sum_eq]

/-- Witness for C9 as amended: a counter created with value 10 and a TTL of
100 nanoseconds, decremented by 3 and by 4 before the TTL elapses. -/
theorem decrement_wrapped_difference_witness :
    (newInMemoryLimitsStorage.create 1000 "bucket" 10 100).1 = true ∧
    (decrementAll "bucket" [(1010, 3), (1100, 4)]
        (newInMemoryLimitsStorage.create 1000 "bucket" 10 100).2).2.get 1100 "bucket"
      = (3, true) :=
  have h := decrement_wrapped_difference newInMemoryLimitsStorage "bucket" 10 100 1000 1100
    [(1010, 3), (1100, 4)] (by decide) (by decide) (by decide)
    (fun _ => ⟨by decide, by decide⟩)
  ⟨by decide, h.2.2.2.1 (by decide)⟩

/-- C9 as stated fails: after `create(key, v, ttl)` with `v` the smallest
`int`, `-2^63`, one `decrement(key, 1)` returns no error and leaves
`get(key) = (2^63 - 1, true)`, not `(v - 1, true)`. -/
theorem decrement_difference_counterexample :
    inIntRange (-9223372036854775808) ∧
    (newInMemoryLimitsStorage.create 1000 "bucket" (-9223372036854775808) 100).1 = true ∧
    ((newInMemoryLimitsStorage.create 1000 "bucket" (-9223372036854775808) 100).2.decrement
        1000 "bucket" 1).1 = none ∧
    ((newInMemoryLimitsStorage.create 1000 "bucket" (-9223372036854775808) 100).2.decrement
        1000 "bucket" 1).2.get 1000 "bucket" = (9223372036854775807, true) ∧
    ((newInMemoryLimitsStorage.create 1000 "bucket" (-9223372036854775808) 100).2.decrement
        1000 "bucket" 1).2.get 1000 "bucket" ≠ (-9223372036854775808 - 1, true) := by
  refine ⟨by decide, by decide, by decide, by decide, by decide⟩


end Threescale
